import Mathlib

/-!
Shallow embedding of the Bepshapati backend product API
(`src/api/index.ts`, `src/api/types.ts`).

The update endpoint `app.put("/api/products/:id")` and the creation
endpoint `app.post("/api/products")` are modelled as pure functions over
a JSON value type, an association-list document type and a store mapping
product ids to documents.  The MongoDB driver calls (`ObjectId.isValid`,
`updateOne` with a `$set` document using dotted field paths) are modelled
with their standard semantics.  Dates are modelled by a `Nat` clock value
passed in as `now`.
-/

set_option autoImplicit false

namespace Bepshapati

/-- JSON-like runtime values of the JavaScript handler.  `date` models a
JavaScript `Date` produced by `new Date()`, carrying the clock value. -/
inductive JVal where
  | str (s : String)
  | num (n : Int)
  | bool (b : Bool)
  | date (t : Nat)
  | null
  | arr (xs : List JVal)
  | obj (fields : List (String × JVal))

/-- A JSON object body / MongoDB document: ordered association list of
string keys to values, as JavaScript objects preserve insertion order.
JSON parsing yields unique keys. -/
abbrev Doc := List (String × JVal)

/-- JavaScript truthiness of an optionally-present value (`undefined`,
`null`, `""`, `0` and `false` are falsy; objects, arrays and dates are
truthy).  `NaN` does not arise in the integer model. -/
def truthy : Option JVal → Bool
  | none => false
  | some (JVal.str s) => !(s == "")
  | some (JVal.num n) => !(n == 0)
  | some (JVal.bool b) => b
  | some (JVal.date _) => true
  | some JVal.null => false
  | some (JVal.arr _) => true
  | some (JVal.obj _) => true

/-- Property access `doc[k]`: the value at the first occurrence of key
`k`, or `none` (JavaScript `undefined`). -/
def lookup : Doc → String → Option JVal
  | [], _ => none
  | (k', v') :: rest, k => if k' = k then some v' else lookup rest k

/-- Assignment `doc[k] = v`: replace the first occurrence of `k` in
place, or append the key at the end (JavaScript property creation). -/
def setField : Doc → String → JVal → Doc
  | [], k, v => [(k, v)]
  | (k', v') :: rest, k, v =>
      if k' = k then (k, v) :: rest else (k', v') :: setField rest k v

/-- Split a key on `.` into its MongoDB field-path segments
(`"ratings.nifar"` addresses field `nifar` inside field `ratings`). -/
def splitOnDot : List Char → List (List Char)
  | [] => [[]]
  | c :: rest =>
      if c = '.' then [] :: splitOnDot rest
      else
        match splitOnDot rest with
        | [] => [[c]]
        | p :: ps => (c :: p) :: ps

/-- The MongoDB field path of an update-document key. -/
def pathOf (k : String) : List (List Char) :=
  splitOnDot k.data

/-- Apply one `$set` path to a document: a one-segment path sets the
field; a longer path descends into the named subdocument (treating a
missing or non-object value as empty, as MongoDB creates intermediate
documents). -/
def setPath : Doc → List (List Char) → JVal → Doc
  | d, [], _ => d
  | d, [k], v => setField d (String.mk k) v
  | d, k :: k' :: rest, v =>
      let sub : Doc :=
        match lookup d (String.mk k) with
        | some (JVal.obj fs) => fs
        | _ => []
      setField d (String.mk k) (JVal.obj (setPath sub (k' :: rest) v))

/-- Apply a whole `$set` document, path by path in key order. -/
def applySet (d : Doc) (u : Doc) : Doc :=
  u.foldl (fun acc kv => setPath acc (pathOf kv.1) kv.2) d

/-- Whether one field path is a prefix of another (MongoDB rejects a
`$set` whose paths overlap this way with a conflict error). -/
def pathLe (p q : List (List Char)) : Bool :=
  List.isPrefixOf p q

/-- Pairwise conflict scan over the field paths of a `$set` document. -/
def anyPairConflict : List (List (List Char)) → Bool
  | [] => false
  | p :: rest =>
      rest.any (fun q => pathLe p q || pathLe q p) || anyPairConflict rest

/-- Server-side validation of a `$set` document: it is rejected (the
driver throws, landing in the handler's `catch`) when two field paths
conflict, or when it addresses the immutable `_id` field (the JSON body
can never hold an `ObjectId`, so a `$set` on `_id` always modifies it). -/
def setDocFails (u : Doc) : Bool :=
  anyPairConflict (u.map (fun kv => pathOf kv.1)) ||
    u.any (fun kv => (pathOf kv.1).head? == some "_id".data)

/-- The store: product ids mapped to their field documents. -/
abbrev Store := List (String × Doc)

/-- `findOne {_id}`: the document of the first entry with the given id. -/
def findDoc : Store → String → Option Doc
  | [], _ => none
  | (i, d) :: rest, id => if i = id then some d else findDoc rest id

/-- Replace the document at `id` by `f` of it, leaving ids and all other
entries unchanged. -/
def mapUpdate (s : Store) (id : String) (f : Doc → Doc) : Store :=
  s.map (fun e => if e.1 = id then (e.1, f e.2) else e)

/-- Outcome of `collection.updateOne({_id: id}, {$set: u})`:
the update document is validated first (MongoDB rejects an invalid
update document even when no document matches); then `matchedCount` is
0 or 1 according to whether the id is present. -/
inductive UpdateResult where
  | failure (msg : String)
  | noMatch
  | updated (s : Store)

def updateOne (s : Store) (id : String) (u : Doc) : UpdateResult :=
  if setDocFails u then
    UpdateResult.failure "Cannot update immutable or conflicting fields"
  else
    match findDoc s id with
    | none => UpdateResult.noMatch
    | some _ => UpdateResult.updated (mapUpdate s id (fun d => applySet d u))

/-- `ObjectId.isValid`: a 24-character hex string, or any 12-character
string (interpreted as 12 raw bytes by the driver). -/
def isHexChar (c : Char) : Bool :=
  c.isDigit || ('a' ≤ c && c ≤ 'f') || ('A' ≤ c && c ≤ 'F')

def isValidObjectId (s : String) : Bool :=
  (s.length == 24 && s.data.all isHexChar) || s.length == 12

/-- HTTP response of the update / creation handlers, by status code:
200 `res.json({message, product})`, 201 created, 400, 404, 500. -/
inductive Response where
  | ok (message : String) (product : Doc)
  | created (product : Doc)
  | badRequest (error : String)
  | notFound (error : String)
  | serverError (error : String)

def Response.status : Response → Nat
  | .ok _ _ => 200
  | .created _ => 201
  | .badRequest _ => 400
  | .notFound _ => 404
  | .serverError _ => 500

/-- The success message of a response, when it is a 200. -/
def Response.message? : Response → Option String
  | .ok m _ => some m
  | _ => none

/-- The `product` payload of a response, when it is a 200. -/
def Response.product? : Response → Option Doc
  | .ok _ p => some p
  | _ => none

/-- Guard of the comment-only branch:
`updates.comment && !updates.ratings` — JavaScript truthiness of the
literal `comment` and `ratings` properties. -/
def commentGuard (updates : Doc) : Bool :=
  truthy (lookup updates "comment") && !truthy (lookup updates "ratings")

/-- The `$set` document of the comment-only branch:
`{comment: updates.comment, lastModifiedAt: new Date()}`. -/
def commentSetDoc (now : Nat) (updates : Doc) : Doc :=
  [("comment", (lookup updates "comment").getD JVal.null),
   ("lastModifiedAt", JVal.date now)]

/-- `Object.keys(updates).some(key => key.startsWith("ratings."))`. -/
def hasRatingsDotKey (updates : Doc) : Bool :=
  updates.any (fun kv => "ratings.".data.isPrefixOf kv.1.data)

/-- `app.put("/api/products/:id")`: returns the store after the request
and the HTTP response.  Mirrors `src/api/index.ts` lines 141–198:
invalid id → 400; comment-only branch; `ratings.`-key scan → 400 when
absent; otherwise `updates.lastModifiedAt = new Date()` and
`$set: updates`; `matchedCount === 0` → 404; a throwing store call is
caught and answered with a 500 `"Internal server error"`. -/
def putHandler (now : Nat) (store : Store) (id : String) (updates : Doc) :
    Store × Response :=
  if !isValidObjectId id then
    (store, Response.badRequest "Invalid product ID format")
  else if commentGuard updates then
    let setDoc := commentSetDoc now updates
    match updateOne store id setDoc with
    | UpdateResult.failure _ =>
        (store, Response.serverError "Internal server error")
    | UpdateResult.noMatch =>
        (store, Response.notFound "Product not found")
    | UpdateResult.updated s' =>
        (s', Response.ok "Comment updated successfully" setDoc)
  else if !hasRatingsDotKey updates then
    (store, Response.badRequest "Rating is required for product updates")
  else
    let updates' := setField updates "lastModifiedAt" (JVal.date now)
    match updateOne store id updates' with
    | UpdateResult.failure _ =>
        (store, Response.serverError "Internal server error")
    | UpdateResult.noMatch =>
        (store, Response.notFound "Product not found")
    | UpdateResult.updated s' =>
        (s', Response.ok "Product updated successfully" updates')

/-- JavaScript `a || b` on an optionally-present left operand, as in
`req.body.ratings?.nifar || 0`. -/
def jsOr (v : Option JVal) (dflt : JVal) : JVal :=
  match v with
  | some x => if truthy (some x) then x else dflt
  | none => dflt

/-- `req.body.ratings?.k`: optional chaining — `undefined` when
`ratings` is absent, `null`, or has no such property (non-object values
have no such property). -/
def ratingsLookup (body : Doc) (k : String) : Option JVal :=
  match lookup body "ratings" with
  | some (JVal.obj fs) => lookup fs k
  | _ => none

/-- `Array.isArray`. -/
def isArray : Option JVal → Bool
  | some (JVal.arr _) => true
  | _ => false

/-- The product document built by `app.post("/api/products")`
(lines 106–117): fixed four-reviewer ratings object, defaulted comment,
`createdAt` set to the current time.  `none` models the 400 response
when `!req.body.name || !Array.isArray(req.body.imageUrls)`. -/
def createProduct (now : Nat) (body : Doc) : Option Doc :=
  if !truthy (lookup body "name") || !isArray (lookup body "imageUrls") then
    none
  else
    some [("name", (lookup body "name").getD JVal.null),
          ("imageUrls", (lookup body "imageUrls").getD JVal.null),
          ("ratings", JVal.obj
            [("nifar", jsOr (ratingsLookup body "nifar") (JVal.num 0)),
             ("afia", jsOr (ratingsLookup body "afia") (JVal.num 0)),
             ("sijil", jsOr (ratingsLookup body "sijil") (JVal.num 0)),
             ("naim", jsOr (ratingsLookup body "naim") (JVal.num 0))]),
          ("comment", jsOr (lookup body "comment") (JVal.str "")),
          ("createdAt", JVal.date now)]

/-- `app.post("/api/products")`: insert the built product under the id
the store assigns (`newId`), or answer 400. -/
def postHandler (now : Nat) (store : Store) (newId : String) (body : Doc) :
    Store × Response :=
  match createProduct now body with
  | none =>
      (store, Response.badRequest "Missing required fields: name and imageUrls")
  | some p => (store ++ [(newId, p)], Response.created p)

/-- The keys of a product's `ratings` mapping, when it is an object. -/
def ratingsKeys (d : Doc) : Option (List String) :=
  match lookup d "ratings" with
  | some (JVal.obj fs) => some (fs.map (fun kv => kv.1))
  | _ => none

/-- The spec's invariant on a product document: `ratings` has exactly
the four known reviewer keys. -/
def ratingsWellFormed (d : Doc) : Bool :=
  ratingsKeys d == some ["nifar", "afia", "sijil", "naim"]

/-- A valid ObjectId (the spec's own example id). -/
def pid1 : String := "507f1f77bcf86cd799439011"

/-- A second valid ObjectId, not present in the sample store. -/
def pidMissing : String := "507f1f77bcf86cd799439099"

/-- A concrete stored product document, as built by the creation
endpoint and then rated. -/
def prodA : Doc :=
  [("name", JVal.str "p"),
   ("imageUrls", JVal.arr [JVal.str "u1"]),
   ("ratings", JVal.obj
     [("nifar", JVal.num 1), ("afia", JVal.num 2),
      ("sijil", JVal.num 3), ("naim", JVal.num 4)]),
   ("comment", JVal.str "old"),
   ("createdAt", JVal.date 0)]

/-- A one-product sample store. -/
def sampleStore : Store := [(pid1, prodA)]

/-! ### Association-list and `$set` lemmas -/

theorem lookup_setField_self (d : Doc) (k : String) (v : JVal) :
    lookup (setField d k v) k = some v := by
  induction d with
  | nil => simp [setField, lookup]
  | cons kv rest ih =>
      obtain ⟨k', v'⟩ := kv
      by_cases h : k' = k
      · simp [setField, lookup, h]
      · simp [setField, lookup, h, ih]

theorem lookup_setField_ne (d : Doc) (k k' : String) (v : JVal)
    (h : k' ≠ k) : lookup (setField d k' v) k = lookup d k := by
  induction d with
  | nil => simp [setField, lookup, h]
  | cons kv rest ih =>
      obtain ⟨k₀, v₀⟩ := kv
      by_cases h₀ : k₀ = k'
      · simp [setField, lookup, h₀, h]
      · simp [setField, lookup, h₀, ih]

theorem mem_setField {d : Doc} {k : String} {v : JVal} {kv : String × JVal}
    (h : kv ∈ setField d k v) : kv ∈ d ∨ kv = (k, v) := by
  induction d with
  | nil => simp [setField] at h; simp [h]
  | cons kv₀ rest ih =>
      obtain ⟨k₀, v₀⟩ := kv₀
      by_cases h₀ : k₀ = k
      · simp [setField, h₀] at h
        rcases h with h | h
        · right; simp [h]
        · left; simp [h]
      · simp [setField, h₀] at h
        rcases h with h | h
        · left; simp [h]
        · rcases ih h with h' | h'
          · left; simp [h']
          · right; exact h'

theorem lookup_setPath_ne (d : Doc) (p : List (List Char)) (v : JVal)
    (k : String) (h : p.head? ≠ some k.data) :
    lookup (setPath d p v) k = lookup d k := by
  have hne : ∀ c : List Char, c ≠ k.data → String.mk c ≠ k := by
    intro c hc heq
    exact hc (congrArg String.data heq)
  match p with
  | [] => rfl
  | [k₁] =>
      simp only [List.head?] at h
      exact lookup_setField_ne d k (String.mk k₁) v
        (hne k₁ (fun hc => h (by rw [hc])))
  | k₁ :: k₂ :: rest =>
      simp only [List.head?] at h
      exact lookup_setField_ne d k (String.mk k₁) _
        (hne k₁ (fun hc => h (by rw [hc])))

theorem applySet_append (d : Doc) (u₁ u₂ : Doc) :
    applySet d (u₁ ++ u₂) = applySet (applySet d u₁) u₂ := by
  simp [applySet, List.foldl_append]

theorem lookup_applySet_frame (u : Doc) (d : Doc) (k : String)
    (h : ∀ kv ∈ u, (pathOf kv.1).head? ≠ some k.data) :
    lookup (applySet d u) k = lookup d k := by
  induction u generalizing d with
  | nil => rfl
  | cons kv rest ih =>
      have hstep : applySet d (kv :: rest) =
          applySet (setPath d (pathOf kv.1) kv.2) rest := rfl
      rw [hstep, ih _ (fun kv' hkv' => h kv' (List.mem_cons_of_mem _ hkv')),
        lookup_setPath_ne d _ _ k (h kv (List.mem_cons_self _ _))]

theorem findDoc_mapUpdate (s : Store) (id pid : String) (f : Doc → Doc) :
    findDoc (mapUpdate s id f) pid =
      if pid = id then (findDoc s pid).map f else findDoc s pid := by
  induction s with
  | nil => by_cases h : pid = id <;> simp [mapUpdate, findDoc, h]
  | cons e rest ih =>
      obtain ⟨i, d⟩ := e
      have hrest : mapUpdate ((i, d) :: rest) id f =
          (if i = id then (i, f d) else (i, d)) :: mapUpdate rest id f := rfl
      rw [hrest]
      by_cases hi : i = id
      · rw [if_pos hi]
        by_cases hp : pid = id
        · have hip : i = pid := hi.trans hp.symm
          simp [findDoc, hip, hp]
        · have hip : i ≠ pid := fun h => hp (h.symm.trans hi)
          simp [findDoc, hip, hp, ih]
      · rw [if_neg hi]
        by_cases hip : i = pid
        · have hp : ¬pid = id := fun h => hi (hip.trans h)
          simp [findDoc, hip, hp]
        · simp [findDoc, hip, ih]

theorem mapUpdate_keys (s : Store) (id : String) (f : Doc → Doc) :
    (mapUpdate s id f).map Prod.fst = s.map Prod.fst := by
  induction s with
  | nil => rfl
  | cons e rest ih =>
      obtain ⟨i, d⟩ := e
      by_cases hi : i = id <;> simp [mapUpdate, hi] <;>
        simpa [mapUpdate] using ih

theorem setField_split (d : Doc) (k : String) (v : JVal) :
    ∃ u₁ u₂, setField d k v = u₁ ++ (k, v) :: u₂ := by
  induction d with
  | nil => exact ⟨[], [], rfl⟩
  | cons kv rest ih =>
      obtain ⟨k₀, v₀⟩ := kv
      by_cases h₀ : k₀ = k
      · exact ⟨[], rest, by simp [setField, h₀]⟩
      · obtain ⟨u₁, u₂, hu⟩ := ih
        exact ⟨(k₀, v₀) :: u₁, u₂, by simp [setField, h₀, hu]⟩

theorem anyPairConflict_split (L₁ : List (List (List Char)))
    (p : List (List Char)) (L₂ : List (List (List Char)))
    (h : anyPairConflict (L₁ ++ p :: L₂) = false) :
    ∀ q ∈ L₂, pathLe p q = false ∧ pathLe q p = false := by
  induction L₁ with
  | nil =>
      intro q hq
      simp only [List.nil_append, anyPairConflict, Bool.or_eq_false_iff,
        List.any_eq_false] at h
      have h1 := h.1 q hq
      simp only [Bool.or_eq_true, not_or, Bool.not_eq_true] at h1
      exact h1
  | cons x L₁' ih =>
      intro q hq
      simp only [List.cons_append, anyPairConflict,
        Bool.or_eq_false_iff] at h
      exact ih h.2 q hq

theorem pathLe_of_head (a : List Char) (q : List (List Char))
    (h : q.head? = some a) : pathLe [a] q = true := by
  match q with
  | [] => simp at h
  | b :: t =>
      simp only [List.head?, Option.some.injEq] at h
      subst h
      simp [pathLe, List.isPrefixOf]

theorem lookup_applySet_of_split (d : Doc) (u u₁ u₂ : Doc) (k : String)
    (v : JVal) (hsplit : u = u₁ ++ (k, v) :: u₂)
    (hpath : pathOf k = [k.data])
    (hfr : ∀ kv ∈ u₂, (pathOf kv.1).head? ≠ some k.data) :
    lookup (applySet d u) k = some v := by
  have hmk : String.mk k.data = k := rfl
  have h1 : applySet d u = applySet (setField (applySet d u₁) k v) u₂ := by
    rw [hsplit, applySet_append]
    have : applySet (applySet d u₁) ((k, v) :: u₂) =
        applySet (setPath (applySet d u₁) (pathOf k) v) u₂ := rfl
    rw [this, hpath]
    simp [setPath, hmk]
  rw [h1, lookup_applySet_frame u₂ _ k hfr, lookup_setField_self]

theorem setDocFails_eq_false_iff (u : Doc) :
    setDocFails u = false ↔
      anyPairConflict (u.map (fun kv => pathOf kv.1)) = false ∧
        u.any (fun kv => (pathOf kv.1).head? == some "_id".data) = false := by
  simp [setDocFails, Bool.or_eq_false_iff]

theorem setDocFails_commentSetDoc (now : Nat) (updates : Doc) :
    setDocFails (commentSetDoc now updates) = false := rfl

/-! ### `updateOne` characterisation -/

theorem updateOne_found {s : Store} {id : String} {u : Doc} {d : Doc}
    (hfail : setDocFails u = false) (hfind : findDoc s id = some d) :
    updateOne s id u =
      UpdateResult.updated (mapUpdate s id (fun x => applySet x u)) := by
  simp [updateOne, hfail, hfind]

theorem updateOne_missing {s : Store} {id : String} {u : Doc}
    (hfail : setDocFails u = false) (hfind : findDoc s id = none) :
    updateOne s id u = UpdateResult.noMatch := by
  simp [updateOne, hfail, hfind]

theorem updateOne_updated_inv {s : Store} {id : String} {u : Doc}
    {s' : Store} (h : updateOne s id u = UpdateResult.updated s') :
    setDocFails u = false ∧ ∃ d, findDoc s id = some d ∧
      s' = mapUpdate s id (fun x => applySet x u) := by
  unfold updateOne at h
  by_cases hf : setDocFails u = true
  · rw [if_pos hf] at h
    exact UpdateResult.noConfusion h
  · rw [if_neg hf] at h
    cases hd : findDoc s id with
    | none => rw [hd] at h; exact UpdateResult.noConfusion h
    | some d =>
        rw [hd] at h
        injection h with hs
        exact ⟨Bool.not_eq_true _ ▸ hf, d, rfl, hs.symm⟩

/-! ### Branch equations of the update handler -/

theorem putHandler_invalid {now : Nat} {store : Store} {id : String}
    {updates : Doc} (h : isValidObjectId id = false) :
    putHandler now store id updates =
      (store, Response.badRequest "Invalid product ID format") := by
  simp [putHandler, h]

theorem putHandler_comment {now : Nat} {store : Store} {id : String}
    {updates : Doc} (h1 : isValidObjectId id = true)
    (h2 : commentGuard updates = true) :
    putHandler now store id updates =
      match updateOne store id (commentSetDoc now updates) with
      | UpdateResult.failure _ =>
          (store, Response.serverError "Internal server error")
      | UpdateResult.noMatch =>
          (store, Response.notFound "Product not found")
      | UpdateResult.updated s' =>
          (s', Response.ok "Comment updated successfully"
            (commentSetDoc now updates)) := by
  simp [putHandler, h1, h2]

theorem putHandler_reject {now : Nat} {store : Store} {id : String}
    {updates : Doc} (h1 : isValidObjectId id = true)
    (h2 : commentGuard updates = false)
    (h3 : hasRatingsDotKey updates = false) :
    putHandler now store id updates =
      (store, Response.badRequest "Rating is required for product updates") := by
  simp [putHandler, h1, h2, h3]

theorem putHandler_ratings {now : Nat} {store : Store} {id : String}
    {updates : Doc} (h1 : isValidObjectId id = true)
    (h2 : commentGuard updates = false)
    (h3 : hasRatingsDotKey updates = true) :
    putHandler now store id updates =
      match updateOne store id
          (setField updates "lastModifiedAt" (JVal.date now)) with
      | UpdateResult.failure _ =>
          (store, Response.serverError "Internal server error")
      | UpdateResult.noMatch =>
          (store, Response.notFound "Product not found")
      | UpdateResult.updated s' =>
          (s', Response.ok "Product updated successfully"
            (setField updates "lastModifiedAt" (JVal.date now))) := by
  simp [putHandler, h1, h2, h3]

/-! ### Conflict-freedom consequences -/

theorem frame_heads_of_no_conflict (u u₁ u₂ : Doc) (k : String) (v : JVal)
    (hsplit : u = u₁ ++ (k, v) :: u₂) (hpath : pathOf k = [k.data])
    (hc : anyPairConflict (u.map (fun kv => pathOf kv.1)) = false) :
    ∀ kv ∈ u₂, (pathOf kv.1).head? ≠ some k.data := by
  intro kv hkv heq
  have hmap : u.map (fun kv => pathOf kv.1) =
      u₁.map (fun kv => pathOf kv.1) ++
        pathOf k :: u₂.map (fun kv => pathOf kv.1) := by
    rw [hsplit]; simp
  rw [hmap] at hc
  have hpair := anyPairConflict_split _ _ _ hc (pathOf kv.1)
    (List.mem_map_of_mem _ hkv)
  have hle : pathLe (pathOf k) (pathOf kv.1) = true := by
    rw [hpath]; exact pathLe_of_head _ _ heq
  rw [hpair.1] at hle
  exact Bool.false_ne_true hle

theorem lookup_applySet_setField_self (d updates : Doc) (k : String)
    (v : JVal) (hpath : pathOf k = [k.data])
    (hc : anyPairConflict
      ((setField updates k v).map (fun kv => pathOf kv.1)) = false) :
    lookup (applySet d (setField updates k v)) k = some v := by
  obtain ⟨u₁, u₂, hsplit⟩ := setField_split updates k v
  exact lookup_applySet_of_split d _ u₁ u₂ k v hsplit hpath
    (frame_heads_of_no_conflict _ u₁ u₂ k v hsplit hpath hc)

/-- Exhaustive enumeration of the update handler's outcomes. -/
theorem putHandler_cases (now : Nat) (store : Store) (id : String)
    (updates : Doc) :
    (isValidObjectId id = false ∧ putHandler now store id updates =
      (store, Response.badRequest "Invalid product ID format")) ∨
    (isValidObjectId id = true ∧ commentGuard updates = false ∧
      hasRatingsDotKey updates = false ∧ putHandler now store id updates =
        (store, Response.badRequest "Rating is required for product updates")) ∨
    (∃ u, ((commentGuard updates = true ∧ u = commentSetDoc now updates) ∨
        (commentGuard updates = false ∧ hasRatingsDotKey updates = true ∧
          u = setField updates "lastModifiedAt" (JVal.date now))) ∧
      isValidObjectId id = true ∧
      ((∃ msg, updateOne store id u = UpdateResult.failure msg ∧
          putHandler now store id updates =
            (store, Response.serverError "Internal server error")) ∨
       (updateOne store id u = UpdateResult.noMatch ∧
          putHandler now store id updates =
            (store, Response.notFound "Product not found")) ∨
       (setDocFails u = false ∧ (∃ d, findDoc store id = some d) ∧
          putHandler now store id updates =
            (mapUpdate store id (fun x => applySet x u),
             Response.ok
               (if commentGuard updates then "Comment updated successfully"
                else "Product updated successfully") u)))) := by
  by_cases h1 : isValidObjectId id = true
  · by_cases h2 : commentGuard updates = true
    · refine Or.inr (Or.inr ⟨commentSetDoc now updates,
        Or.inl ⟨h2, rfl⟩, h1, ?_⟩)
      have heq := @putHandler_comment now store id updates h1 h2
      cases huo : updateOne store id (commentSetDoc now updates) with
      | failure msg =>
          rw [huo] at heq
          exact Or.inl ⟨msg, rfl, heq⟩
      | noMatch =>
          rw [huo] at heq
          exact Or.inr (Or.inl ⟨rfl, heq⟩)
      | updated s' =>
          rw [huo] at heq
          obtain ⟨hfail, d, hfind, hs⟩ := updateOne_updated_inv huo
          refine Or.inr (Or.inr ⟨hfail, ⟨d, hfind⟩, ?_⟩)
          rw [heq, hs, if_pos h2]
    · have h2' : commentGuard updates = false := Bool.not_eq_true _ ▸ h2
      by_cases h3 : hasRatingsDotKey updates = true
      · refine Or.inr (Or.inr ⟨setField updates "lastModifiedAt" (JVal.date now),
          Or.inr ⟨h2', h3, rfl⟩, h1, ?_⟩)
        have heq := @putHandler_ratings now store id updates h1 h2' h3
        cases huo : updateOne store id
            (setField updates "lastModifiedAt" (JVal.date now)) with
        | failure msg =>
            rw [huo] at heq
            exact Or.inl ⟨msg, rfl, heq⟩
        | noMatch =>
            rw [huo] at heq
            exact Or.inr (Or.inl ⟨rfl, heq⟩)
        | updated s' =>
            rw [huo] at heq
            obtain ⟨hfail, d, hfind, hs⟩ := updateOne_updated_inv huo
            refine Or.inr (Or.inr ⟨hfail, ⟨d, hfind⟩, ?_⟩)
            rw [heq, hs, if_neg (by rw [h2']; exact Bool.false_ne_true)]
      · have h3' : hasRatingsDotKey updates = false := Bool.not_eq_true _ ▸ h3
        exact Or.inr (Or.inl ⟨h1, h2', h3', putHandler_reject h1 h2' h3'⟩)
  · have h1' : isValidObjectId id = false := Bool.not_eq_true _ ▸ h1
    exact Or.inl ⟨h1', putHandler_invalid h1'⟩

/-! ### Claims -/

/-- An update document carrying both a comment and a dotted ratings key
(the C1 overlap). -/
def overlapDoc : Doc :=
  [("comment", JVal.str "great"), ("ratings.nifar", JVal.num 5)]

/-- An update document whose `$set` paths conflict, making the store
call throw. -/
def conflictDoc : Doc :=
  [("ratings.nifar", JVal.num 5), ("ratings.nifar.deep", JVal.num 1)]

/-- Claim C7: for every id that is not a well-formed store identifier,
the update handler answers the `InvalidIdentifier` error (HTTP 400,
`"Invalid product ID format"`) with the store untouched — no store
operation is issued — regardless of the update document's contents. -/
theorem c7_invalid_identifier (now : Nat) (store : Store) (id : String)
    (updates : Doc) (h : isValidObjectId id = false) :
    putHandler now store id updates =
      (store, Response.badRequest "Invalid product ID format") ∧
    (putHandler now store id updates).2.status = 400 := by
  refine ⟨putHandler_invalid h, ?_⟩
  rw [putHandler_invalid h]
  rfl

/-- Witness for C7 at the malformed id `"not-an-id"`. -/
theorem c7_witness :
    isValidObjectId "not-an-id" = false ∧
    (putHandler 5 sampleStore "not-an-id" [("comment", JVal.str "x")] =
      (sampleStore, Response.badRequest "Invalid product ID format") ∧
    (putHandler 5 sampleStore "not-an-id" [("comment", JVal.str "x")]).2.status
      = 400) :=
  ⟨rfl, c7_invalid_identifier 5 sampleStore "not-an-id"
    [("comment", JVal.str "x")] rfl⟩

/-- Claim C6: for every update document with no `comment` key and no
`ratings.`-prefixed key (the empty document included), the handler with
a well-formed id fails with the `MissingRatingOrComment` error
(HTTP 400, `"Rating is required for product updates"`) and issues no
store mutation: the store comes back unchanged. -/
theorem c6_missing_rating_or_comment (now : Nat) (store : Store)
    (id : String) (updates : Doc) (hid : isValidObjectId id = true)
    (hc : lookup updates "comment" = none)
    (hr : hasRatingsDotKey updates = false) :
    putHandler now store id updates =
      (store, Response.badRequest "Rating is required for product updates") ∧
    (putHandler now store id updates).2.status = 400 := by
  have hguard : commentGuard updates = false := by
    simp [commentGuard, hc, truthy]
  refine ⟨putHandler_reject hid hguard hr, ?_⟩
  rw [putHandler_reject hid hguard hr]
  rfl

/-- Witness for C6 at the empty update document. -/
theorem c6_witness :
    isValidObjectId pid1 = true ∧ lookup [] "comment" = none ∧
    hasRatingsDotKey [] = false ∧
    (putHandler 5 sampleStore pid1 [] =
      (sampleStore,
       Response.badRequest "Rating is required for product updates") ∧
    (putHandler 5 sampleStore pid1 []).2.status = 400) :=
  ⟨rfl, rfl, rfl, c6_missing_rating_or_comment 5 sampleStore pid1 [] rfl rfl rfl⟩

/-- Claim C8: for every well-formed identifier with no matching product,
the handler — in comment-only mode or in ratings mode (with a `$set`
document the store accepts) — answers `NotFound` (HTTP 404,
`"Product not found"`, distinct from the 400 of `InvalidIdentifier`)
after the issued `updateOne` reports zero matches; the store is
unchanged. -/
theorem c8_not_found (now : Nat) (store : Store) (id : String)
    (updates : Doc) (hid : isValidObjectId id = true)
    (hmiss : findDoc store id = none)
    (hmode : commentGuard updates = true ∨
      (commentGuard updates = false ∧ hasRatingsDotKey updates = true ∧
        setDocFails (setField updates "lastModifiedAt" (JVal.date now))
          = false)) :
    putHandler now store id updates =
      (store, Response.notFound "Product not found") ∧
    (putHandler now store id updates).2.status = 404 ∧
    updateOne store id
      (if commentGuard updates then commentSetDoc now updates
       else setField updates "lastModifiedAt" (JVal.date now)) =
      UpdateResult.noMatch := by
  rcases hmode with hg | ⟨hg, hr, hf⟩
  · have huo := updateOne_missing (setDocFails_commentSetDoc now updates) hmiss
    have heq := @putHandler_comment now store id updates hid hg
    rw [huo] at heq
    exact ⟨heq, by rw [heq]; rfl, by rw [if_pos hg]; exact huo⟩
  · have huo := updateOne_missing hf hmiss
    have heq := @putHandler_ratings now store id updates hid hg hr
    rw [huo] at heq
    refine ⟨heq, by rw [heq]; rfl, ?_⟩
    rw [if_neg (by rw [hg]; exact Bool.false_ne_true)]
    exact huo

/-- Witness for C8: a ratings-mode update addressed to an absent id. -/
theorem c8_witness :
    isValidObjectId pidMissing = true ∧
    findDoc sampleStore pidMissing = none ∧
    (commentGuard [("ratings.afia", JVal.num 3)] = false ∧
      hasRatingsDotKey [("ratings.afia", JVal.num 3)] = true ∧
      setDocFails (setField [("ratings.afia", JVal.num 3)] "lastModifiedAt"
        (JVal.date 5)) = false) ∧
    (putHandler 5 sampleStore pidMissing [("ratings.afia", JVal.num 3)] =
      (sampleStore, Response.notFound "Product not found") ∧
    (putHandler 5 sampleStore pidMissing
      [("ratings.afia", JVal.num 3)]).2.status = 404 ∧
    updateOne sampleStore pidMissing
      (if commentGuard [("ratings.afia", JVal.num 3)] then
        commentSetDoc 5 [("ratings.afia", JVal.num 3)]
       else setField [("ratings.afia", JVal.num 3)] "lastModifiedAt"
        (JVal.date 5)) = UpdateResult.noMatch) :=
  ⟨rfl, rfl, ⟨rfl, rfl, rfl⟩,
    c8_not_found 5 sampleStore pidMissing [("ratings.afia", JVal.num 3)]
      rfl rfl (Or.inr ⟨rfl, rfl, rfl⟩)⟩

/-- Counterexample to claim C9 as stated: a store failure whose known
error type carries the message
`"Cannot update immutable or conflicting fields"` is answered with the
generic `"Internal server error"` — the known error's message is not
passed through by the update handler. -/
theorem c9_counterexample :
    updateOne sampleStore pid1
      (setField conflictDoc "lastModifiedAt" (JVal.date 7)) =
      UpdateResult.failure "Cannot update immutable or conflicting fields" ∧
    putHandler 7 sampleStore pid1 conflictDoc =
      (sampleStore, Response.serverError "Internal server error") ∧
    ("Internal server error" : String) ≠
      "Cannot update immutable or conflicting fields" :=
  ⟨rfl, rfl, by decide⟩

/-- Claim C9 (amended): when the store operation fails during an update,
the failure is reported as HTTP 500 with an `{error: string}` body whose
message is always the fixed generic `"Internal server error"` — the
update handler never passes the underlying error's message through —
and the store is left unchanged. -/
theorem c9_generic_server_error (now : Nat) (store : Store) (id : String)
    (updates : Doc) (e : String)
    (h : (putHandler now store id updates).2 = Response.serverError e) :
    e = "Internal server error" ∧
    (putHandler now store id updates).1 = store ∧
    (putHandler now store id updates).2.status = 500 := by
  rcases putHandler_cases now store id updates with
    ⟨_, heq⟩ | ⟨_, _, _, heq⟩ |
    ⟨u, _, _, ⟨msg, _, heq⟩ | ⟨_, heq⟩ | ⟨_, _, heq⟩⟩
  · rw [heq] at h; simp [Response.status] at h
  · rw [heq] at h; simp [Response.status] at h
  · rw [heq] at h
    have h' : Response.serverError "Internal server error" =
        Response.serverError e := h
    injection h' with hmsg
    exact ⟨hmsg.symm, by rw [heq], by rw [heq]; rfl⟩
  · rw [heq] at h; simp [Response.status] at h
  · rw [heq] at h; simp [Response.status] at h

/-- Witness for C9 at a concrete failing store operation. -/
theorem c9_witness :
    (putHandler 7 sampleStore pid1 conflictDoc).2 =
      Response.serverError "Internal server error" ∧
    ("Internal server error" = "Internal server error" ∧
     (putHandler 7 sampleStore pid1 conflictDoc).1 = sampleStore ∧
     (putHandler 7 sampleStore pid1 conflictDoc).2.status = 500) :=
  ⟨rfl, c9_generic_server_error 7 sampleStore pid1 conflictDoc
    "Internal server error" rfl⟩

/-- Counterexample to claim C1 as stated: on an update carrying both a
`comment` and a `ratings.nifar` key, the handler answers in comment-only
mode (message `"Comment updated successfully"`, product holding only the
comment and timestamp), applies the comment, and drops the
`ratings.nifar` update (the stored score stays 1) — comment-only mode,
not ratings mode, wins this overlap. -/
theorem c1_counterexample :
    (putHandler 7 sampleStore pid1 overlapDoc).2.message? =
      some "Comment updated successfully" ∧
    (putHandler 7 sampleStore pid1 overlapDoc).2.product? =
      some [("comment", JVal.str "great"), ("lastModifiedAt", JVal.date 7)] ∧
    ((findDoc (putHandler 7 sampleStore pid1 overlapDoc).1 pid1).bind
      (fun d => ratingsLookup d "nifar")) = some (JVal.num 1) ∧
    ((findDoc (putHandler 7 sampleStore pid1 overlapDoc).1 pid1).bind
      (fun d => lookup d "comment")) = some (JVal.str "great") :=
  ⟨rfl, rfl, rfl, rfl⟩

/-- Claim C1 (amended): for every update document containing a truthy
`comment` field, no truthy field literally named `ratings`, and at least
one `ratings.`-prefixed field, the handler (valid, existing id) applies
comment-only mode — the comment-mode guard tests the literal `ratings`
property, which a dotted `ratings.x` key does not set — so the comment
is applied and the ratings updates are silently dropped: the stored
`ratings` value is unchanged. -/
theorem c1_overlap_comment_mode_wins (now : Nat) (store : Store)
    (id : String) (updates : Doc) (d : Doc)
    (hid : isValidObjectId id = true) (hfind : findDoc store id = some d)
    (hcomment : truthy (lookup updates "comment") = true)
    (hratlit : truthy (lookup updates "ratings") = false)
    (hdot : hasRatingsDotKey updates = true) :
    putHandler now store id updates =
      (mapUpdate store id (fun x => applySet x (commentSetDoc now updates)),
       Response.ok "Comment updated successfully" (commentSetDoc now updates)) ∧
    ∀ d', findDoc (putHandler now store id updates).1 id = some d' →
      lookup d' "ratings" = lookup d "ratings" := by
  have hguard : commentGuard updates = true := by
    simp [commentGuard, hcomment, hratlit]
  have huo := updateOne_found (setDocFails_commentSetDoc now updates) hfind
  have heq := @putHandler_comment now store id updates hid hguard
  rw [huo] at heq
  refine ⟨heq, ?_⟩
  intro d' hd'
  rw [heq] at hd'
  rw [findDoc_mapUpdate, if_pos rfl, hfind] at hd'
  simp only [Option.map_some'] at hd'
  injection hd' with hd''
  rw [← hd'']
  have hred : applySet d (commentSetDoc now updates) =
      setField (setField d "comment"
        ((lookup updates "comment").getD JVal.null))
        "lastModifiedAt" (JVal.date now) := rfl
  rw [hred,
    lookup_setField_ne _ "ratings" "lastModifiedAt" _ (by decide),
    lookup_setField_ne _ "ratings" "comment" _ (by decide)]

/-- Witness for C1 (amended) at the overlap document. -/
theorem c1_witness :
    (isValidObjectId pid1 = true ∧
     findDoc sampleStore pid1 = some prodA ∧
     truthy (lookup overlapDoc "comment") = true ∧
     truthy (lookup overlapDoc "ratings") = false ∧
     hasRatingsDotKey overlapDoc = true) ∧
    (putHandler 7 sampleStore pid1 overlapDoc =
      (mapUpdate sampleStore pid1
        (fun x => applySet x (commentSetDoc 7 overlapDoc)),
       Response.ok "Comment updated successfully" (commentSetDoc 7 overlapDoc)) ∧
     ∀ d', findDoc (putHandler 7 sampleStore pid1 overlapDoc).1 pid1 = some d' →
       lookup d' "ratings" = lookup prodA "ratings") :=
  ⟨⟨rfl, rfl, rfl, rfl, rfl⟩,
    c1_overlap_comment_mode_wins 7 sampleStore pid1 overlapDoc prodA
      rfl rfl rfl rfl rfl⟩

/-- Counterexample to claim C2 as stated: the update document
`{comment: ""}` contains a `comment` field and no `ratings.`-prefixed
field, and the id is valid and present, yet the handler answers 400
`"Rating is required for product updates"` instead of applying the
comment — the comment-mode guard requires a truthy comment, and the
empty string is falsy. -/
theorem c2_counterexample :
    lookup [("comment", JVal.str "")] "comment" = some (JVal.str "") ∧
    hasRatingsDotKey [("comment", JVal.str "")] = false ∧
    findDoc sampleStore pid1 = some prodA ∧
    putHandler 7 sampleStore pid1 [("comment", JVal.str "")] =
      (sampleStore,
       Response.badRequest "Rating is required for product updates") :=
  ⟨rfl, rfl, rfl, rfl⟩

/-- Claim C2 (amended): for every update document whose `comment` field
is truthy (in particular a non-empty string) and which has no truthy
field literally named `ratings`, the handler (valid, existing id) sets
exactly `comment` to the supplied value and `lastModifiedAt` to the
current time, leaves every other field of the product and every other
product unchanged, and returns the applied comment plus timestamp with
the message `"Comment updated successfully"`. -/
theorem c2_comment_only_update (now : Nat) (store : Store) (id : String)
    (updates : Doc) (d : Doc)
    (hid : isValidObjectId id = true) (hfind : findDoc store id = some d)
    (hcomment : truthy (lookup updates "comment") = true)
    (hratlit : truthy (lookup updates "ratings") = false) :
    putHandler now store id updates =
      (mapUpdate store id (fun x => applySet x (commentSetDoc now updates)),
       Response.ok "Comment updated successfully" (commentSetDoc now updates)) ∧
    (∀ d', findDoc (putHandler now store id updates).1 id = some d' →
       lookup d' "comment" = some ((lookup updates "comment").getD JVal.null) ∧
       lookup d' "lastModifiedAt" = some (JVal.date now) ∧
       ∀ k, k ≠ "comment" → k ≠ "lastModifiedAt" →
         lookup d' k = lookup d k) ∧
    ∀ pid, pid ≠ id →
      findDoc (putHandler now store id updates).1 pid = findDoc store pid := by
  have hguard : commentGuard updates = true := by
    simp [commentGuard, hcomment, hratlit]
  have huo := updateOne_found (setDocFails_commentSetDoc now updates) hfind
  have heq := @putHandler_comment now store id updates hid hguard
  rw [huo] at heq
  have hred : applySet d (commentSetDoc now updates) =
      setField (setField d "comment"
        ((lookup updates "comment").getD JVal.null))
        "lastModifiedAt" (JVal.date now) := rfl
  refine ⟨heq, ?_, ?_⟩
  · intro d' hd'
    rw [heq] at hd'
    rw [findDoc_mapUpdate, if_pos rfl, hfind] at hd'
    simp only [Option.map_some'] at hd'
    injection hd' with hd''
    rw [← hd'', hred]
    refine ⟨?_, lookup_setField_self _ _ _, ?_⟩
    · rw [lookup_setField_ne _ "comment" "lastModifiedAt" _ (by decide),
        lookup_setField_self]
    · intro k hk1 hk2
      rw [lookup_setField_ne _ k "lastModifiedAt" _ (fun h => hk2 h.symm),
        lookup_setField_ne _ k "comment" _ (fun h => hk1 h.symm)]
  · intro pid hpid
    rw [heq, findDoc_mapUpdate, if_neg hpid]

/-- Witness for C2 (amended) at `{comment: "new"}`. -/
theorem c2_witness :
    (isValidObjectId pid1 = true ∧
     findDoc sampleStore pid1 = some prodA ∧
     truthy (lookup [("comment", JVal.str "new")] "comment") = true ∧
     truthy (lookup [("comment", JVal.str "new")] "ratings") = false) ∧
    (putHandler 9 sampleStore pid1 [("comment", JVal.str "new")] =
      (mapUpdate sampleStore pid1
        (fun x => applySet x (commentSetDoc 9 [("comment", JVal.str "new")])),
       Response.ok "Comment updated successfully"
        (commentSetDoc 9 [("comment", JVal.str "new")])) ∧
     (∀ d', findDoc (putHandler 9 sampleStore pid1
          [("comment", JVal.str "new")]).1 pid1 = some d' →
        lookup d' "comment" =
          some ((lookup [("comment", JVal.str "new")] "comment").getD
            JVal.null) ∧
        lookup d' "lastModifiedAt" = some (JVal.date 9) ∧
        ∀ k, k ≠ "comment" → k ≠ "lastModifiedAt" →
          lookup d' k = lookup prodA k) ∧
     ∀ pid, pid ≠ pid1 →
       findDoc (putHandler 9 sampleStore pid1
         [("comment", JVal.str "new")]).1 pid = findDoc sampleStore pid) :=
  ⟨⟨rfl, rfl, rfl, rfl⟩,
    c2_comment_only_update 9 sampleStore pid1 [("comment", JVal.str "new")]
      prodA rfl rfl rfl rfl⟩

/-- An update document mixing a comment with a dotted ratings key, used
against claim C5. -/
def c5Doc : Doc :=
  [("comment", JVal.str "nice"), ("ratings.afia", JVal.num 4)]

/-- Counterexample to claim C5 as stated: the update document
`{comment: "nice", "ratings.afia": 4}` contains a `ratings.`-prefixed
field, and the id is valid and present, yet the handler answers in
comment-only mode and the supplied `ratings.afia` field is not applied
(the stored score stays 2). -/
theorem c5_counterexample :
    hasRatingsDotKey c5Doc = true ∧
    (putHandler 7 sampleStore pid1 c5Doc).2.message? =
      some "Comment updated successfully" ∧
    ((findDoc (putHandler 7 sampleStore pid1 c5Doc).1 pid1).bind
      (fun d => ratingsLookup d "afia")) = some (JVal.num 2) :=
  ⟨rfl, rfl, rfl⟩

/-- Claim C5 (amended): for every update document containing at least
one `ratings.`-prefixed field, provided the comment-only guard does not
fire (no truthy `comment`, or a truthy literal `ratings` field) and the
resulting `$set` document is one the store accepts, the handler (valid,
existing id) applies exactly the supplied fields plus `lastModifiedAt`
to the store and returns the full update document applied, with the
message `"Product updated successfully"`. -/
theorem c5_ratings_mode (now : Nat) (store : Store) (id : String)
    (updates : Doc) (d : Doc)
    (hid : isValidObjectId id = true)
    (hguard : commentGuard updates = false)
    (hdot : hasRatingsDotKey updates = true)
    (hfind : findDoc store id = some d)
    (hfail : setDocFails
      (setField updates "lastModifiedAt" (JVal.date now)) = false) :
    putHandler now store id updates =
      (mapUpdate store id (fun x =>
        applySet x (setField updates "lastModifiedAt" (JVal.date now))),
       Response.ok "Product updated successfully"
        (setField updates "lastModifiedAt" (JVal.date now))) := by
  have huo := updateOne_found hfail hfind
  have heq := @putHandler_ratings now store id updates hid hguard hdot
  rw [huo] at heq
  exact heq

/-- Witness for C5 (amended) at `{"ratings.nifar": 5}`. -/
theorem c5_witness :
    (isValidObjectId pid1 = true ∧
     commentGuard [("ratings.nifar", JVal.num 5)] = false ∧
     hasRatingsDotKey [("ratings.nifar", JVal.num 5)] = true ∧
     findDoc sampleStore pid1 = some prodA ∧
     setDocFails (setField [("ratings.nifar", JVal.num 5)]
       "lastModifiedAt" (JVal.date 9)) = false) ∧
    putHandler 9 sampleStore pid1 [("ratings.nifar", JVal.num 5)] =
      (mapUpdate sampleStore pid1 (fun x =>
        applySet x (setField [("ratings.nifar", JVal.num 5)]
          "lastModifiedAt" (JVal.date 9))),
       Response.ok "Product updated successfully"
        (setField [("ratings.nifar", JVal.num 5)]
          "lastModifiedAt" (JVal.date 9))) :=
  ⟨⟨rfl, rfl, rfl, rfl, rfl⟩,
    c5_ratings_mode 9 sampleStore pid1 [("ratings.nifar", JVal.num 5)]
      prodA rfl rfl rfl rfl rfl⟩

/-- Creation always builds a `ratings` mapping with exactly the four
reviewer keys, whatever the request body smuggles in. -/
theorem createProduct_ratings_wellFormed (now : Nat) (body : Doc)
    (p : Doc) (h : createProduct now body = some p) :
    ratingsWellFormed p = true := by
  unfold createProduct at h
  by_cases hb : (!truthy (lookup body "name") ||
      !isArray (lookup body "imageUrls")) = true
  · rw [if_pos hb] at h
    exact Option.noConfusion h
  · rw [if_neg hb] at h
    injection h with hp
    rw [← hp]
    rfl

/-- Claim C3, evidence of the code bug: the stored sample product
satisfies the four-reviewer invariant, creation preserves it even when
the request body smuggles an extra reviewer into `ratings`, but the
update handler accepts `{"ratings.bob": 5}` (HTTP 200) and admits the
unknown key `bob` into the stored `ratings` mapping, breaking the
invariant declared by the `Rating` type of `src/api/types.ts`. -/
theorem c3_unknown_reviewer_admitted :
    ratingsWellFormed prodA = true ∧
    (createProduct 0 [("name", JVal.str "x"), ("imageUrls", JVal.arr []),
      ("ratings", JVal.obj [("bob", JVal.num 9)])]).map ratingsWellFormed =
      some true ∧
    (putHandler 7 sampleStore pid1 [("ratings.bob", JVal.num 5)]).2.status
      = 200 ∧
    ((findDoc (putHandler 7 sampleStore pid1
      [("ratings.bob", JVal.num 5)]).1 pid1).map ratingsWellFormed) =
      some false ∧
    ((findDoc (putHandler 7 sampleStore pid1
      [("ratings.bob", JVal.num 5)]).1 pid1).bind
        (fun d => ratingsLookup d "bob")) = some (JVal.num 5) :=
  ⟨rfl, rfl, rfl, rfl, rfl⟩

/-- A ratings-mode update document that also addresses `createdAt`. -/
def c4Doc : Doc :=
  [("ratings.nifar", JVal.num 5), ("createdAt", JVal.str "2020")]

/-- Counterexample to claim C4 as stated: a successful ratings-mode
update whose document also carries a `createdAt` field overwrites the
stored `createdAt` (date 0 becomes the string `"2020"`). -/
theorem c4_counterexample :
    lookup prodA "createdAt" = some (JVal.date 0) ∧
    (putHandler 7 sampleStore pid1 c4Doc).2.status = 200 ∧
    ((findDoc (putHandler 7 sampleStore pid1 c4Doc).1 pid1).bind
      (fun d => lookup d "createdAt")) = some (JVal.str "2020") :=
  ⟨rfl, rfl, rfl⟩

/-- Claim C4 (amended): for every update-handler invocation, the set of
stored identifiers is unchanged, and the stored `createdAt` of every
product is unchanged provided the request runs in comment-only mode or
its update document does not itself address `createdAt`; only a
ratings-mode document supplying a `createdAt` field can overwrite it. -/
theorem c4_frame (now : Nat) (store : Store) (id : String) (updates : Doc)
    (h : commentGuard updates = true ∨
      ∀ kv ∈ updates, (pathOf kv.1).head? ≠ some "createdAt".data) :
    (putHandler now store id updates).1.map Prod.fst = store.map Prod.fst ∧
    ∀ pid, ((findDoc (putHandler now store id updates).1 pid).bind
        (fun d => lookup d "createdAt")) =
      ((findDoc store pid).bind (fun d => lookup d "createdAt")) := by
  rcases putHandler_cases now store id updates with
    ⟨_, heq⟩ | ⟨_, _, _, heq⟩ |
    ⟨u, hu, _, ⟨msg, _, heq⟩ | ⟨_, heq⟩ | ⟨hfail, ⟨d, hfind⟩, heq⟩⟩
  · rw [heq]; exact ⟨rfl, fun pid => rfl⟩
  · rw [heq]; exact ⟨rfl, fun pid => rfl⟩
  · rw [heq]; exact ⟨rfl, fun pid => rfl⟩
  · rw [heq]; exact ⟨rfl, fun pid => rfl⟩
  · rw [heq]
    refine ⟨?_, ?_⟩
    · show (mapUpdate store id (fun x => applySet x u)).map Prod.fst =
        store.map Prod.fst
      exact mapUpdate_keys store id _
    intro pid
    show ((findDoc (mapUpdate store id (fun x => applySet x u)) pid).bind
      (fun dd => lookup dd "createdAt")) = _
    rw [findDoc_mapUpdate]
    by_cases hpid : pid = id
    · rw [if_pos hpid]
      cases hfd : findDoc store pid with
      | none => rfl
      | some dd =>
          simp only [Option.map_some', Option.some_bind]
          apply lookup_applySet_frame
          rcases hu with ⟨hg, hu⟩ | ⟨hg, hdot, hu⟩
          · subst hu
            intro kv hkv
            simp only [commentSetDoc, List.mem_cons,
              List.not_mem_nil, or_false] at hkv
            rcases hkv with hkv | hkv
            · rw [hkv]
              show (pathOf "comment").head? ≠ some "createdAt".data
              decide
            · rw [hkv]
              show (pathOf "lastModifiedAt").head? ≠ some "createdAt".data
              decide
          · subst hu
            intro kv hkv
            rcases mem_setField hkv with hin | hnew
            · have hp := h.resolve_left
                (fun ht => Bool.false_ne_true ((hg ▸ ht : (false : Bool) = true)))
              exact hp kv hin
            · rw [hnew]
              show (pathOf "lastModifiedAt").head? ≠ some "createdAt".data
              decide
    · rw [if_neg hpid]

/-- Witness for C4 (amended): a ratings-mode update not addressing
`createdAt` leaves every stored `createdAt` and all ids unchanged. -/
theorem c4_witness :
    (∀ kv ∈ [(("ratings.naim" : String), JVal.num 5)],
      (pathOf kv.1).head? ≠ some "createdAt".data) ∧
    ((putHandler 9 sampleStore pid1
        [("ratings.naim", JVal.num 5)]).1.map Prod.fst =
      sampleStore.map Prod.fst ∧
     ∀ pid, ((findDoc (putHandler 9 sampleStore pid1
        [("ratings.naim", JVal.num 5)]).1 pid).bind
          (fun d => lookup d "createdAt")) =
       ((findDoc sampleStore pid).bind (fun d => lookup d "createdAt"))) :=
  ⟨by decide,
    c4_frame 9 sampleStore pid1 [("ratings.naim", JVal.num 5)]
      (Or.inr (by decide))⟩

/-- The `$set` document and resulting store of the C10 witness call. -/
def c10U : Doc :=
  [("ratings.nifar", JVal.num 5), ("lastModifiedAt", JVal.date 9)]

/-- Claim C10: on every successful update, in either mode, the
`product` object of the JSON response is exactly the field document
submitted to the store's `$set` (the new store is that document applied
at the id), and the `lastModifiedAt` returned to the client equals the
timestamp persisted in the store. -/
theorem c10_response_matches_set_doc (now : Nat) (store : Store)
    (id : String) (updates : Doc) (s' : Store) (m : String) (p : Doc)
    (h : putHandler now store id updates = (s', Response.ok m p)) :
    s' = mapUpdate store id (fun x => applySet x p) ∧
    lookup p "lastModifiedAt" = some (JVal.date now) ∧
    ∀ d', findDoc s' id = some d' →
      lookup d' "lastModifiedAt" = some (JVal.date now) := by
  rcases putHandler_cases now store id updates with
    ⟨_, heq⟩ | ⟨_, _, _, heq⟩ |
    ⟨u, hu, _, ⟨msg, _, heq⟩ | ⟨_, heq⟩ | ⟨hfail, ⟨d, hfind⟩, heq⟩⟩
  · rw [heq] at h
    injection h with h1 h2
    exact Response.noConfusion h2
  · rw [heq] at h
    injection h with h1 h2
    exact Response.noConfusion h2
  · rw [heq] at h
    injection h with h1 h2
    exact Response.noConfusion h2
  · rw [heq] at h
    injection h with h1 h2
    exact Response.noConfusion h2
  · rw [heq] at h
    injection h with h1 h2
    injection h2 with hm hp
    subst h1
    subst hp
    rcases hu with ⟨hg, hu⟩ | ⟨hg, hdot, hu⟩
    · subst hu
      refine ⟨rfl, by rfl, ?_⟩
      intro d' hd'
      rw [findDoc_mapUpdate, if_pos rfl, hfind] at hd'
      simp only [Option.map_some'] at hd'
      injection hd' with hd''
      rw [← hd'']
      have hred : applySet d (commentSetDoc now updates) =
          setField (setField d "comment"
            ((lookup updates "comment").getD JVal.null))
            "lastModifiedAt" (JVal.date now) := rfl
      rw [hred]
      exact lookup_setField_self _ _ _
    · subst hu
      refine ⟨rfl, lookup_setField_self _ _ _, ?_⟩
      intro d' hd'
      rw [findDoc_mapUpdate, if_pos rfl, hfind] at hd'
      simp only [Option.map_some'] at hd'
      injection hd' with hd''
      rw [← hd'']
      exact lookup_applySet_setField_self d updates "lastModifiedAt"
        (JVal.date now) rfl ((setDocFails_eq_false_iff _).mp hfail).1

/-- Witness for C10 at a concrete successful ratings-mode update. -/
theorem c10_witness :
    putHandler 9 sampleStore pid1 [("ratings.nifar", JVal.num 5)] =
      (mapUpdate sampleStore pid1 (fun x => applySet x c10U),
       Response.ok "Product updated successfully" c10U) ∧
    (mapUpdate sampleStore pid1 (fun x => applySet x c10U) =
      mapUpdate sampleStore pid1 (fun x => applySet x c10U) ∧
     lookup c10U "lastModifiedAt" = some (JVal.date 9) ∧
     ∀ d', findDoc (mapUpdate sampleStore pid1
        (fun x => applySet x c10U)) pid1 = some d' →
       lookup d' "lastModifiedAt" = some (JVal.date 9)) :=
  ⟨rfl, c10_response_matches_set_doc 9 sampleStore pid1
    [("ratings.nifar", JVal.num 5)] _ _ _ rfl⟩

end Bepshapati
